import Mathlib

/-!
Verification of the mail-tester-ninja discovery engine against its
natural-language specification.

The development shallowly embeds the two Python source files:
`main.py` (domain extraction, candidate generation, verification client,
discovery loop) and `process_csv.py` (per-row batch processing).
Python strings are modelled as Lean `String`s, with the handful of Python
string primitives the code uses (`str.replace`, `str.split("/")[0]`,
`str.strip`, `str.lower`, indexing `[0]`) given explicit executable
definitions over the underlying character lists.
The network is modelled as an oracle argument: the discovery loop takes a
probe function `String → VResult`, and the batch row processor takes a
function producing the outcome of the single HTTP POST it performs.
Parsed JSON bodies are modelled by the `JsonVal` inductive, so that the
verification client's behavior on payloads of every JSON shape — including
the ones on which the Python code raises an uncaught `AttributeError` — is
captured.
-/

/-- Python `str.lower()` (ASCII case folding, as used by the sources). -/
def pyLower (s : String) : String := ⟨s.data.map Char.toLower⟩

/-- Trim whitespace from both ends of a character list (Python `str.strip()`). -/
def trimL (l : List Char) : List Char :=
  ((l.dropWhile Char.isWhitespace).reverse.dropWhile Char.isWhitespace).reverse

/-- Python `str.strip()`. -/
def pyStrip (s : String) : String := ⟨trimL s.data⟩

/-- First character of a string, Python `s[0]` (only used on non-empty strings). -/
def strHead (s : String) : Char := s.data.headD 'a'

/-- One-character string. -/
def charStr (c : Char) : String := ⟨[c]⟩

/-- Does the pattern `p` occur as a contiguous sublist of `l`?
Mirrors Python's `p in s`. -/
def occursIn (p : List Char) : List Char → Bool
  | [] => p.isEmpty
  | c :: cs => p.isPrefixOf (c :: cs) || occursIn p cs

/-- One left-to-right pass removing every (leftmost, non-overlapping)
occurrence of the non-empty pattern `p`: Python `s.replace(p, "")`.
`fuel` bounds the recursion; it is instantiated with the length of the list,
which suffices because every step consumes at least one character. -/
def replaceGo (p : List Char) : Nat → List Char → List Char
  | _, [] => []
  | 0, l => l
  | fuel + 1, c :: cs =>
    if p.isPrefixOf (c :: cs) then replaceGo p fuel (cs.drop (p.length - 1))
    else c :: replaceGo p fuel cs

/-- Python `s.replace(pat, "")`. -/
def pyRemoveAll (pat : String) (s : String) : String :=
  ⟨replaceGo pat.data s.data.length s.data⟩

/-- Python `s.split("/")[0]`: the segment before the first `/`. -/
def takeBeforeSlash : List Char → List Char
  | [] => []
  | c :: cs => if c = '/' then [] else c :: takeBeforeSlash cs

/-- Embedding of `extract_root_domain` (main.py).
`company_website.replace("http://", "").replace("https://", "")
.replace("www.", "").split("/")[0].strip()`. -/
def extract_root_domain (company_website : String) : String :=
  ⟨trimL (takeBeforeSlash
    (pyRemoveAll "www."
      (pyRemoveAll "https://" (pyRemoveAll "http://" company_website))).data)⟩

/-- Remove the pattern `p` from the front of `l` when it is a prefix,
otherwise leave `l` unchanged. -/
def stripLeading (p : List Char) (l : List Char) : List Char :=
  if p.isPrefixOf l then l.drop p.length else l

/-- The scheme-stripping step as the specification words it: remove a leading
`http://` or `https://` at most once. -/
def stripSchemeClaim (l : List Char) : List Char :=
  if "http://".data.isPrefixOf l then l.drop "http://".data.length
  else stripLeading "https://".data l

/-- The Domain Extractor as the specification describes it: remove a leading
scheme at most once, remove a leading `www.`, truncate at the first `/`,
trim surrounding whitespace. -/
def extract_root_domain_claim (w : String) : String :=
  ⟨trimL (takeBeforeSlash (stripLeading "www.".data (stripSchemeClaim w.data)))⟩

/-- First-occurrence-wins deduplication, accumulating the keys seen so far:
Python `dict.fromkeys` iteration order. -/
def dedupAux : List String → List String → List String
  | _, [] => []
  | seen, x :: xs => if x ∈ seen then dedupAux seen xs else x :: dedupAux (x :: seen) xs

/-- Python `list(dict.fromkeys(l))`: drop every later duplicate, keep the
first occurrence of each element. -/
def dedupKeepFirst (l : List String) : List String := dedupAux [] l

/-- The deduplication step as the specification words it (§9): iterate the
template list, inserting each entry into an insertion-ordered unique
collection, keeping first occurrences. -/
def specDedup (l : List String) : List String :=
  l.foldl (fun acc x => if x ∈ acc then acc else acc ++ [x]) []

/-- Embedding of `generate_prioritized_email_patterns` (main.py).
`last_name` is `Option String` because the Python caller passes `None` when
the last name is absent; `none` and `some ""` are both falsy for
`if last_name:`. -/
def generate_prioritized_email_patterns
    (first_name : String) (last_name : Option String) (domain : String) :
    List String :=
  if first_name = "" then []
  else
    let fn := pyLower first_name
    let first_initial := charStr (Char.toLower (strHead fn))
    let pats :=
      match last_name with
      | some ln =>
        if ln = "" then [fn ++ "@" ++ domain]
        else
          let lnl := pyLower ln
          let last_initial := charStr (Char.toLower (strHead lnl))
          [fn ++ "@" ++ domain,
           first_initial ++ lnl ++ "@" ++ domain,
           fn ++ "." ++ lnl ++ "@" ++ domain,
           fn ++ lnl ++ "@" ++ domain,
           first_initial ++ "." ++ lnl ++ "@" ++ domain,
           first_initial ++ last_initial ++ "@" ++ domain,
           fn ++ last_initial ++ "@" ++ domain,
           lnl ++ fn ++ "@" ++ domain,
           lnl ++ "@" ++ domain]
      | none => [fn ++ "@" ++ domain]
    dedupKeepFirst pats

/-- The fixed 9-template priority list of §4.2, evaluated against
`{first_name, last_name, first_initial = first_name[0],
last_initial = last_name[0], domain}` (names already lower-cased per the
generator's precondition). -/
def specTemplates9 (fn ln d : String) : List String :=
  [fn ++ "@" ++ d,
   charStr (strHead fn) ++ ln ++ "@" ++ d,
   fn ++ "." ++ ln ++ "@" ++ d,
   fn ++ ln ++ "@" ++ d,
   charStr (strHead fn) ++ "." ++ ln ++ "@" ++ d,
   charStr (strHead fn) ++ charStr (strHead ln) ++ "@" ++ d,
   fn ++ charStr (strHead ln) ++ "@" ++ d,
   ln ++ fn ++ "@" ++ d,
   ln ++ "@" ++ d]

/-- A parsed JSON value, as produced by Python's `response.json()`:
a string, a number (integral here), a boolean, `null`, an array, or an
object (an association list of string keys and values). -/
inductive JsonVal where
  | str (s : String)
  | num (n : Int)
  | bool (b : Bool)
  | null
  | arr (l : List JsonVal)
  | obj (fields : List (String × JsonVal))
  deriving Repr

/-- Python truthiness of a JSON value: empty strings, zero, `False`, `null`,
empty arrays and empty objects are falsy, everything else truthy. -/
def jsonTruthy : JsonVal → Bool
  | JsonVal.str s => s != ""
  | JsonVal.num n => n != 0
  | JsonVal.bool b => b
  | JsonVal.null => false
  | JsonVal.arr l => !l.isEmpty
  | JsonVal.obj fields => !fields.isEmpty

/-- Python's `result.get("code") or ""` on a JSON object: the value of the
`code` field, with a missing or falsy value replaced by the empty string. -/
def codeOrEmpty (fields : List (String × JsonVal)) : JsonVal :=
  match fields.lookup "code" with
  | none => JsonVal.str ""
  | some v => if jsonTruthy v then v else JsonVal.str ""

/-- The string that `.lower()` is invoked on in `validate_email`, when there
is one: `some s` when `result.get("code") or ""` evaluates to the string
`s`; `none` when it evaluates to a truthy non-string, on which Python's
`.lower()` raises an uncaught `AttributeError`. -/
def pyCodeString (fields : List (String × JsonVal)) : Option String :=
  match codeOrEmpty fields with
  | JsonVal.str s => some s
  | _ => none

/-- A probe outcome, the dict returned by `validate_email` (main.py).
The opaque JSON payload carried in `details` is the parsed response
object. -/
structure VResult where
  is_valid : Bool
  status_code : String
  details : Option (List (String × JsonVal))
  error : Option String
  deriving Repr

/-- The dict returned by `find_valid_email` (main.py). -/
structure DiscoveryResult where
  email_found : String
  status_code : Option String
  validation_result : Option (List (String × JsonVal))
  total_credits_used : Nat
  error : Option String
  deriving Repr

/-- One discovery run: the returned `DiscoveryResult`, the list of candidate
emails actually probed (in probe order), and the number of inter-probe
`time.sleep` calls performed. -/
structure RunLog where
  result : DiscoveryResult
  probed : List String
  delays : Nat
  deriving Repr

/-- The probe loop of `find_valid_email` (main.py, lines 129-153).
`attempts` and `last_result` carry the loop state; the probe oracle stands
for `validate_email`.  The `time.sleep(RATE_LIMIT_DELAY_SECONDS)` at the
bottom of the loop body runs after every probe that is not valid (the loop
returns before it on a valid probe), which `delays` counts. -/
def findLoop (probe : String → VResult) :
    List String → Nat → Option VResult → RunLog
  | [], attempts, last_result =>
    ⟨⟨"no valid email",
      Option.map VResult.status_code last_result,
      Option.bind last_result VResult.details,
      attempts,
      match last_result with
      | some r => r.error
      | none => some "No pattern returned as valid"⟩,
     [], 0⟩
  | email :: rest, attempts, _ =>
    let r := probe email
    if r.is_valid then
      ⟨⟨email, some r.status_code, r.details, attempts + 1, r.error⟩, [email], 0⟩
    else
      let cont := findLoop probe rest (attempts + 1) (some r)
      ⟨cont.result, email :: cont.probed, cont.delays + 1⟩

/-- Name normalization in `find_valid_email`: `(first_name or "").strip().lower()`. -/
def normFirst (first_name : Option String) : String :=
  pyLower (pyStrip (first_name.getD ""))

/-- Name normalization in `find_valid_email`:
`(last_name or "").strip().lower() if last_name else None`. -/
def normLast (last_name : Option String) : Option String :=
  match last_name with
  | none => none
  | some l => if l = "" then none else some (pyLower (pyStrip l))

/-- The deduplicated candidate list a discovery run probes: the generator
applied to the normalized names and the extracted domain. -/
def candidates (first_name last_name : Option String) (company_website : String) :
    List String :=
  generate_prioritized_email_patterns (normFirst first_name) (normLast last_name)
    (extract_root_domain company_website)

/-- Embedding of `find_valid_email` (main.py), parameterized by the probe
oracle standing for `validate_email`. -/
def find_valid_email (probe : String → VResult)
    (first_name last_name : Option String) (company_website : String) : RunLog :=
  findLoop probe (candidates first_name last_name company_website) 0 none

/-- The codes `validate_email` accepts as deliverable (main.py, `VALID_CODES`). -/
def VALID_CODES : List String := ["ok", "catch_all", "catchall"]

/-- Outcome of the single HTTP GET performed by `validate_email`:
a `requests.exceptions.RequestException` (network error, timeout, or non-2xx
raised by `raise_for_status`), a 2xx body that fails JSON decoding
(`requests.exceptions.JSONDecodeError`), or a 2xx body that parses as the
JSON value `p` — of any shape, not necessarily an object. -/
inductive ApiOutcome where
  | transportError (msg : String)
  | decodeError
  | payload (p : JsonVal)
  deriving Repr

/-- Embedding of `validate_email` (main.py), as a function of the outcome of
its one network call.  The result is `none` when the function raises instead
of returning: `result.get("code")` on a payload that is not a JSON object,
or `.lower()` on a truthy non-string `code` value, raises an
`AttributeError` that neither `except` clause catches. -/
def validate_email : ApiOutcome → Option VResult
  | ApiOutcome.transportError msg =>
    some ⟨false, "request_error", none, some ("API request failed: " ++ msg)⟩
  | ApiOutcome.decodeError =>
    some ⟨false, "json_error", none, some "Failed to decode API response"⟩
  | ApiOutcome.payload (JsonVal.obj fields) =>
    match pyCodeString fields with
    | some s =>
      let status_code := pyLower s
      some ⟨VALID_CODES.contains status_code, status_code, some fields, none⟩
    | none => none
  | ApiOutcome.payload _ => none

/-- One input row of the batch CSV; a missing column reads as `none`
(`row.get(...)` returning `None`). -/
structure CsvRow where
  first_name : Option String
  last_name : Option String
  company_website : Option String
  deriving DecidableEq, Repr

/-- One output row of the batch CSV (process_csv.py). -/
structure BatchRow where
  first_name : String
  last_name : String
  company_website : String
  email_found : Option String
  status_code : Option String
  validation_result : Option (List (String × JsonVal))
  total_credits_used : Option Nat
  error : Option String
  deriving Repr

/-- The parsed JSON body of a successful POST to the deployed discovery
function, accessed only through `data.get(...)`. -/
structure RespData where
  email_found : Option String
  status_code : Option String
  validation_result : Option (List (String × JsonVal))
  total_credits_used : Option Nat
  error : Option String
  deriving Repr

/-- Outcome of the one `requests.post` in `process_row`: a parsed response,
or any exception (converted by the code into `data = {"error": str(e)}`). -/
inductive PostOutcome where
  | success (d : RespData)
  | failure (msg : String)
  deriving Repr

/-- Embedding of `process_row` (process_csv.py), parameterized by the
outcome of the POST it may perform.  The second component counts how many
external calls the row issued (0 or 1). -/
def process_row (post : Unit → PostOutcome) (row : CsvRow) : BatchRow × Nat :=
  let fn := pyStrip (row.first_name.getD "")
  let ln := pyStrip (row.last_name.getD "")
  let cw := pyStrip (row.company_website.getD "")
  if fn = "" ∨ cw = "" then
    (⟨fn, ln, cw, none, none, none, none, some "Missing required fields"⟩, 0)
  else
    let data : RespData :=
      match post () with
      | PostOutcome.success d => d
      | PostOutcome.failure msg => ⟨none, none, none, none, some msg⟩
    (⟨fn, ln, cw, data.email_found, data.status_code, data.validation_result,
      data.total_credits_used, data.error⟩, 1)

/-- A probe oracle reporting every candidate as a classified `Invalid`. -/
def probeInvalid : String → VResult :=
  fun _ => ⟨false, "invalid", some [("code", JsonVal.str "Invalid")], none⟩

/-- A probe oracle accepting exactly `john.smith@acme.com` (the third
candidate for john/smith at acme.com) and classifying the rest invalid. -/
def probeThird : String → VResult :=
  fun e =>
    if e = "john.smith@acme.com" then
      ⟨true, "ok", some [("code", JsonVal.str "ok")], none⟩
    else ⟨false, "invalid", some [("code", JsonVal.str "Invalid")], none⟩

theorem dedupAux_nodup (l : List String) :
    ∀ seen : List String,
      (dedupAux seen l).Nodup ∧ ∀ x ∈ dedupAux seen l, x ∉ seen := by
  induction l with
  | nil => intro seen; simp [dedupAux]
  | cons x xs ih =>
    intro seen
    by_cases hx : x ∈ seen
    · simpa [dedupAux, hx] using ⟨(ih seen).1, fun y hy => (ih seen).2 y hy⟩
    · have h1 := (ih (x :: seen)).1
      have h2 := (ih (x :: seen)).2
      have he : dedupAux seen (x :: xs) = x :: dedupAux (x :: seen) xs := by
        simp [dedupAux, hx]
      rw [he]
      refine ⟨List.nodup_cons.mpr
        ⟨fun hmem => (h2 x hmem) (List.mem_cons_self x seen), h1⟩, ?_⟩
      intro y hy
      rcases List.mem_cons.mp hy with rfl | hy2
      · exact hx
      · exact fun hin => (h2 y hy2) (List.mem_cons_of_mem _ hin)

theorem dedupAux_congr (l : List String) :
    ∀ s1 s2 : List String, (∀ x, x ∈ s1 ↔ x ∈ s2) →
      dedupAux s1 l = dedupAux s2 l := by
  induction l with
  | nil => intro s1 s2 _; rfl
  | cons x xs ih =>
    intro s1 s2 h
    by_cases hx : x ∈ s1
    · simp [dedupAux, hx, (h x).mp hx, ih _ _ h]
    · have hx2 : x ∉ s2 := fun hc => hx ((h x).mpr hc)
      have e1 : dedupAux s1 (x :: xs) = x :: dedupAux (x :: s1) xs := by
        simp [dedupAux, hx]
      have e2 : dedupAux s2 (x :: xs) = x :: dedupAux (x :: s2) xs := by
        simp [dedupAux, hx2]
      rw [e1, e2, ih (x :: s1) (x :: s2) (fun y => by simp [h y])]

theorem foldl_dedup (l : List String) :
    ∀ acc : List String,
      List.foldl (fun acc x => if x ∈ acc then acc else acc ++ [x]) acc l =
        acc ++ dedupAux acc l := by
  induction l with
  | nil => intro acc; simp [dedupAux]
  | cons x xs ih =>
    intro acc
    by_cases hx : x ∈ acc
    · simp [List.foldl_cons, hx, dedupAux, ih]
    · have e1 : dedupAux acc (x :: xs) = x :: dedupAux (x :: acc) xs := by
        simp [dedupAux, hx]
      have e2 : List.foldl (fun acc x => if x ∈ acc then acc else acc ++ [x])
          acc (x :: xs) =
          List.foldl (fun acc x => if x ∈ acc then acc else acc ++ [x])
            (acc ++ [x]) xs := by
        simp [List.foldl_cons, hx]
      rw [e1, e2, ih (acc ++ [x]),
        dedupAux_congr xs (acc ++ [x]) (x :: acc) (fun y => by simp [or_comm])]
      simp

theorem specDedup_eq_dedupKeepFirst (l : List String) :
    specDedup l = dedupKeepFirst l := by
  simpa [specDedup, dedupKeepFirst] using foldl_dedup l []

theorem lower_fix_head (s : String) (h : pyLower s = s) (hne : s ≠ "") :
    Char.toLower (strHead s) = strHead s := by
  have hd : s.data.map Char.toLower = s.data := congrArg String.data h
  cases e : s.data with
  | nil =>
    exact absurd (by cases s; simp_all [String.ext_iff]) hne
  | cons c cs =>
    rw [e] at hd
    simp only [List.map_cons, List.cons.injEq] at hd
    simp [strHead, e, hd.1]

theorem replaceGo_no_occ (p : List Char) :
    ∀ (fuel : Nat) (l : List Char), l.length ≤ fuel → occursIn p l = false →
      replaceGo p fuel l = l := by
  intro fuel
  induction fuel with
  | zero =>
    intro l hlen _
    cases l with
    | nil => rfl
    | cons c cs => simp at hlen
  | succ f ih =>
    intro l hlen hocc
    cases l with
    | nil => rfl
    | cons c cs =>
      simp only [occursIn, Bool.or_eq_false_iff] at hocc
      have e : replaceGo p (f + 1) (c :: cs) = c :: replaceGo p f cs := by
        simp [replaceGo, hocc.1]
      rw [e, ih cs (by simpa using Nat.le_of_succ_le_succ hlen) hocc.2]

theorem replaceGo_strip (p : List Char) (fuel : Nat) (l : List Char)
    (hp : p ≠ []) (hpre : p.isPrefixOf l = true)
    (hocc : occursIn p (l.drop p.length) = false) (hlen : l.length ≤ fuel) :
    replaceGo p fuel l = l.drop p.length := by
  cases l with
  | nil =>
    cases p with
    | nil => exact absurd rfl hp
    | cons q qs => simp [List.isPrefixOf] at hpre
  | cons c cs =>
    cases fuel with
    | zero => simp at hlen
    | succ f =>
      cases p with
      | nil => exact absurd rfl hp
      | cons q qs =>
        have e : replaceGo (q :: qs) (f + 1) (c :: cs) =
            replaceGo (q :: qs) f (cs.drop ((q :: qs).length - 1)) := by
          simp [replaceGo, hpre]
        have hd : cs.drop ((q :: qs).length - 1) = (c :: cs).drop (q :: qs).length := by
          simp
        rw [e, hd]
        refine replaceGo_no_occ (q :: qs) f ((c :: cs).drop (q :: qs).length) ?_ ?_
        · have hl : cs.length + 1 ≤ f + 1 := by simpa using hlen
          simp only [List.length_drop, List.length_cons]
          omega
        · exact hocc

theorem pyRemoveAll_eq_strip (p s : String) (hp : p.data ≠ [])
    (h : occursIn p.data (stripLeading p.data s.data) = false) :
    (pyRemoveAll p s).data = stripLeading p.data s.data := by
  unfold stripLeading at *
  by_cases hpre : p.data.isPrefixOf s.data = true
  · rw [if_pos hpre] at h ⊢
    exact replaceGo_strip p.data s.data.length s.data hp hpre h (Nat.le_refl _)
  · have hpre2 : p.data.isPrefixOf s.data = false := by
      cases hb : p.data.isPrefixOf s.data
      · rfl
      · exact absurd hb hpre
    rw [if_neg (by simp [hpre2])] at h ⊢
    exact replaceGo_no_occ p.data s.data.length s.data (Nat.le_refl _) h

theorem findLoop_success (probe : String → VResult) :
    ∀ (pats : List String) (k a : Nat) (last_result : Option VResult),
      k < pats.length →
      (probe (pats.getD k "")).is_valid = true →
      (∀ j, j < k → (probe (pats.getD j "")).is_valid = false) →
      findLoop probe pats a last_result =
        ⟨⟨pats.getD k "", some (probe (pats.getD k "")).status_code,
          (probe (pats.getD k "")).details, a + k + 1,
          (probe (pats.getD k "")).error⟩,
         pats.take (k + 1), k⟩ := by
  intro pats
  induction pats with
  | nil => intro k a last_result hk; simp at hk
  | cons e rest ih =>
    intro k a last_result hk hval hprev
    cases k with
    | zero =>
      simp only [List.getD_cons_zero] at hval ⊢
      simp [findLoop, hval]
    | succ k =>
      have h0 : (probe e).is_valid = false := by
        simpa using hprev 0 (Nat.succ_pos k)
      have e1 : findLoop probe (e :: rest) a last_result =
          ⟨(findLoop probe rest (a + 1) (some (probe e))).result,
           e :: (findLoop probe rest (a + 1) (some (probe e))).probed,
           (findLoop probe rest (a + 1) (some (probe e))).delays + 1⟩ := by
        simp [findLoop, h0]
      rw [e1, ih k (a + 1) (some (probe e))
        (Nat.lt_of_succ_lt_succ hk)
        (by simpa using hval)
        (fun j hj => by simpa using hprev (j + 1) (Nat.succ_lt_succ hj))]
      simp only [List.getD_cons_succ, List.take_succ_cons]
      have harith : a + 1 + k + 1 = a + (k + 1) + 1 := by omega
      rw [harith]

theorem findLoop_exhaust (probe : String → VResult) :
    ∀ (pats : List String) (a : Nat) (last_result : Option VResult) (d : String),
      pats ≠ [] →
      (∀ x ∈ pats, (probe x).is_valid = false) →
      findLoop probe pats a last_result =
        ⟨⟨"no valid email", some (probe (pats.getLastD d)).status_code,
          (probe (pats.getLastD d)).details, a + pats.length,
          (probe (pats.getLastD d)).error⟩,
         pats, pats.length⟩ := by
  intro pats
  induction pats with
  | nil => intro a last_result d hne; exact absurd rfl hne
  | cons e rest ih =>
    intro a last_result d _ hall
    have h0 : (probe e).is_valid = false := hall e (List.mem_cons_self e rest)
    have e1 : findLoop probe (e :: rest) a last_result =
        ⟨(findLoop probe rest (a + 1) (some (probe e))).result,
         e :: (findLoop probe rest (a + 1) (some (probe e))).probed,
         (findLoop probe rest (a + 1) (some (probe e))).delays + 1⟩ := by
      simp [findLoop, h0]
    cases rest with
    | nil =>
      rw [e1]
      simp [findLoop, List.getLastD]
    | cons f rs =>
      rw [e1, ih (a + 1) (some (probe e)) e (by simp)
        (fun x hx => hall x (List.mem_cons_of_mem _ hx))]
      simp only [List.getLastD_cons, List.length_cons]
      have harith : a + 1 + (rs.length + 1) = a + (rs.length + 1 + 1) := by omega
      rw [harith]

theorem findLoop_delays (probe : String → VResult) :
    ∀ (pats : List String) (a : Nat) (last_result : Option VResult),
      (findLoop probe pats a last_result).delays =
        ((findLoop probe pats a last_result).probed.filter
          (fun x => !(probe x).is_valid)).length := by
  intro pats
  induction pats with
  | nil => intro a last_result; simp [findLoop]
  | cons e rest ih =>
    intro a last_result
    by_cases hv : (probe e).is_valid = true
    · simp [findLoop, hv]
    · have h0 : (probe e).is_valid = false := by
        cases hb : (probe e).is_valid
        · rfl
        · exact absurd hb hv
      simp [findLoop, h0, List.filter_cons, ih]

theorem dedupKeepFirst_nodup (l : List String) : (dedupKeepFirst l).Nodup :=
  (dedupAux_nodup l []).1

theorem stripScheme_eq (l : List Char)
    (hD : ¬("http://".data.isPrefixOf l = true ∧
      "https://".data.isPrefixOf (l.drop "http://".data.length) = true)) :
    stripLeading "https://".data (stripLeading "http://".data l) =
      stripSchemeClaim l := by
  unfold stripSchemeClaim stripLeading
  by_cases h1 : "http://".data.isPrefixOf l = true
  · have h2 : "https://".data.isPrefixOf (l.drop "http://".data.length) = false := by
      cases hb : "https://".data.isPrefixOf (l.drop "http://".data.length) with
      | false => rfl
      | true => exact absurd ⟨h1, hb⟩ hD
    rw [if_pos h1, if_pos h1, if_neg (by rw [h2]; exact Bool.false_ne_true)]
  · rw [if_neg h1, if_neg h1]

/-- C1: if the (k+1)-st candidate (0-based index `k`) is the first whose probe
reports valid, the discovery engine probes exactly the first k+1 candidates
and returns that candidate's email with the probe's status code and details,
`total_credits_used = k + 1`, and no error. -/
theorem claim1_first_valid_candidate_wins (probe : String → VResult)
    (first_name last_name : Option String) (company_website : String) (k : Nat)
    (hk : k < (candidates first_name last_name company_website).length)
    (hval : (probe ((candidates first_name last_name company_website).getD k "")).is_valid
      = true)
    (hprev : ∀ j, j < k →
      (probe ((candidates first_name last_name company_website).getD j "")).is_valid
        = false)
    (herr : (probe ((candidates first_name last_name company_website).getD k "")).error
      = none) :
    find_valid_email probe first_name last_name company_website =
      ⟨⟨(candidates first_name last_name company_website).getD k "",
        some (probe ((candidates first_name last_name company_website).getD k "")).status_code,
        (probe ((candidates first_name last_name company_website).getD k "")).details,
        k + 1, none⟩,
       (candidates first_name last_name company_website).take (k + 1), k⟩ := by
  have h := findLoop_success probe (candidates first_name last_name company_website)
    k 0 none hk hval hprev
  unfold find_valid_email
  rw [h, herr]
  norm_num

/-- Concrete instance of C1: a mocked client accepting only the third
candidate for john/smith at acme.com yields exactly three probes,
`total_credits_used = 3`, and that candidate as the result. -/
theorem claim1_witness :
    find_valid_email probeThird (some "john") (some "smith") "https://www.acme.com" =
      ⟨⟨"john.smith@acme.com", some "ok", some [("code", JsonVal.str "ok")], 3, none⟩,
       ["john@acme.com", "jsmith@acme.com", "john.smith@acme.com"], 2⟩ := by
  have h := claim1_first_valid_candidate_wins probeThird (some "john") (some "smith")
    "https://www.acme.com" 2 (by decide) (by decide) (by decide) (by decide)
  exact h.trans rfl

/-- C2: when every candidate's probe reports not valid, the discovery engine
returns the sentinel email, credits equal to the full candidate count, and
status code, details and error copied from the last probe. -/
theorem claim2_exhausted_all_invalid (probe : String → VResult)
    (first_name last_name : Option String) (company_website : String)
    (hne : candidates first_name last_name company_website ≠ [])
    (hall : ∀ x ∈ candidates first_name last_name company_website,
      (probe x).is_valid = false) :
    find_valid_email probe first_name last_name company_website =
      ⟨⟨"no valid email",
        some (probe ((candidates first_name last_name company_website).getLastD "")).status_code,
        (probe ((candidates first_name last_name company_website).getLastD "")).details,
        (candidates first_name last_name company_website).length,
        (probe ((candidates first_name last_name company_website).getLastD "")).error⟩,
       candidates first_name last_name company_website,
       (candidates first_name last_name company_website).length⟩ := by
  have h := findLoop_exhaust probe (candidates first_name last_name company_website)
    0 none "" hne hall
  unfold find_valid_email
  rw [h]
  norm_num

/-- Concrete instance of C2: with every probe invalid, the single-candidate
run for john at acme.com consumes one credit and reports no valid email. -/
theorem claim2_witness :
    find_valid_email probeInvalid (some "john") none "acme.com" =
      ⟨⟨"no valid email", some "invalid", some [("code", JsonVal.str "Invalid")], 1, none⟩,
       ["john@acme.com"], 1⟩ := by
  have h := claim2_exhausted_all_invalid probeInvalid (some "john") none "acme.com"
    (by decide) (by decide)
  exact h.trans rfl

/-- C3: for non-empty, lower-cased names the generator output is exactly the
fixed 9-template priority list deduplicated keeping first occurrences, has no
duplicate entries, and for john/smith at acme.com it is the listed 9-element
list. -/
theorem claim3_nine_template_priority_order :
    (∀ fn ln d : String, fn ≠ "" → ln ≠ "" → pyLower fn = fn → pyLower ln = ln →
      generate_prioritized_email_patterns fn (some ln) d =
        specDedup (specTemplates9 fn ln d) ∧
      (generate_prioritized_email_patterns fn (some ln) d).Nodup) ∧
    generate_prioritized_email_patterns "john" (some "smith") "acme.com" =
      ["john@acme.com", "jsmith@acme.com", "john.smith@acme.com",
       "johnsmith@acme.com", "j.smith@acme.com", "js@acme.com",
       "johns@acme.com", "smithjohn@acme.com", "smith@acme.com"] := by
  constructor
  · intro fn ln d h1 h2 hl1 hl2
    have hfix1 := lower_fix_head fn hl1 h1
    have hfix2 := lower_fix_head ln hl2 h2
    constructor
    · rw [specDedup_eq_dedupKeepFirst]
      simp [generate_prioritized_email_patterns, specTemplates9, h1, h2, hl1, hl2,
        hfix1, hfix2]
    · unfold generate_prioritized_email_patterns
      rw [if_neg h1]
      exact dedupKeepFirst_nodup _
  · decide

/-- Concrete instance of C3 at lower-cased non-empty names. -/
theorem claim3_witness :
    generate_prioritized_email_patterns "ann" (some "lee") "x.com" =
      specDedup (specTemplates9 "ann" "lee" "x.com") ∧
    (generate_prioritized_email_patterns "ann" (some "lee") "x.com").Nodup :=
  claim3_nine_template_priority_order.1 "ann" "lee" "x.com"
    (by decide) (by decide) (by decide) (by decide)

/-- C4 fails as stated: `extract_root_domain` replaces `www.` everywhere in
the string, not only as a leading prefix, so on `foo.www.com` the code
returns `foo.com` while the claimed leading-only behavior keeps
`foo.www.com`. -/
theorem claim4_counterexample :
    extract_root_domain "foo.www.com" = "foo.com" ∧
    extract_root_domain_claim "foo.www.com" = "foo.www.com" := by
  constructor <;> decide

/-- C4 amended: `extract_root_domain` removes every occurrence of
`http://`, then `https://`, then `www.` anywhere in the string, truncates at
the first `/`, and trims surrounding whitespace; whenever those substrings
occur at most as the leading prefix (and at most one scheme prefix is
present), this coincides with the claimed leading-only removal, and the two
spec examples hold. -/
theorem claim4_global_replacement :
    (∀ w : String,
      ¬("http://".data.isPrefixOf w.data = true ∧
        "https://".data.isPrefixOf (w.data.drop "http://".data.length) = true) →
      occursIn "http://".data (stripLeading "http://".data w.data) = false →
      occursIn "https://".data
        (stripLeading "https://".data (stripLeading "http://".data w.data)) = false →
      occursIn "www.".data
        (stripLeading "www.".data
          (stripLeading "https://".data (stripLeading "http://".data w.data))) = false →
      extract_root_domain w = extract_root_domain_claim w) ∧
    extract_root_domain "https://www.acme.com/about" = "acme.com" ∧
    extract_root_domain "acme.com" = "acme.com" ∧
    extract_root_domain "foo.www.com" = "foo.com" := by
  refine ⟨?_, by decide, by decide, by decide⟩
  intro w hD hA hB hC
  have e1 : (pyRemoveAll "http://" w).data = stripLeading "http://".data w.data :=
    pyRemoveAll_eq_strip "http://" w (by decide) hA
  have e2 : (pyRemoveAll "https://" (pyRemoveAll "http://" w)).data =
      stripLeading "https://".data (stripLeading "http://".data w.data) := by
    have h := pyRemoveAll_eq_strip "https://" (pyRemoveAll "http://" w) (by decide)
      (by rw [e1]; exact hB)
    rw [e1] at h
    exact h
  have e3 : (pyRemoveAll "www."
        (pyRemoveAll "https://" (pyRemoveAll "http://" w))).data =
      stripLeading "www.".data
        (stripLeading "https://".data (stripLeading "http://".data w.data)) := by
    have h := pyRemoveAll_eq_strip "www."
      (pyRemoveAll "https://" (pyRemoveAll "http://" w)) (by decide)
      (by rw [e2]; exact hC)
    rw [e2] at h
    exact h
  unfold extract_root_domain extract_root_domain_claim
  rw [e3, stripScheme_eq w.data hD]

/-- Concrete instance of the amended C4 on the spec's main example. -/
theorem claim4_witness :
    extract_root_domain "https://www.acme.com/about" =
      extract_root_domain_claim "https://www.acme.com/about" :=
  claim4_global_replacement.1 "https://www.acme.com/about"
    (by decide) (by decide) (by decide) (by decide)

/-- C5 fails as stated: the loop body sleeps after every probe that is not
valid, including the final candidate's, so a one-candidate all-invalid run
performs 1 delay, not at most 0. -/
theorem claim5_counterexample :
    (find_valid_email probeInvalid (some "john") none "acme.com").probed.length = 1 ∧
    ¬((find_valid_email probeInvalid (some "john") none "acme.com").delays ≤
        (find_valid_email probeInvalid (some "john") none "acme.com").probed.length - 1) := by
  constructor <;> decide

/-- C5 amended: an inter-probe delay occurs after every probe that reports
not valid — including the final candidate's — and never after a valid
probe; hence the number of delays equals the number of probed candidates
whose probe was not valid (k−1 when the k-th is accepted, k when none is). -/
theorem claim5_delay_after_every_invalid_probe (probe : String → VResult)
    (first_name last_name : Option String) (company_website : String) :
    (find_valid_email probe first_name last_name company_website).delays =
      ((find_valid_email probe first_name last_name company_website).probed.filter
        (fun x => !(probe x).is_valid)).length :=
  findLoop_delays probe (candidates first_name last_name company_website) 0 none

/-- C6 fails as stated: a 2xx body that parses as JSON but is not an object
(here the empty array), or a JSON object whose `code` field is a truthy
non-string (here the number 5), makes `validate_email` raise an uncaught
`AttributeError` at `result.get("code")` / `.lower()` — modelled as `none` —
instead of returning any of the three claimed outcomes. -/
theorem claim6_counterexample :
    validate_email (ApiOutcome.payload (JsonVal.arr [])) = none ∧
    validate_email (ApiOutcome.payload (JsonVal.obj [("code", JsonVal.num 5)])) =
      none :=
  ⟨rfl, rfl⟩

/-- C6 amended: when `validate_email` returns, it yields exactly one of
three non-overlapping outcomes — transport failure (`request_error`, no
details, an error message), decode failure (`json_error`, no details, a
decode message), or, for a JSON-object payload whose `code` field is
absent, falsy, or a string, a classified result whose status code is the
lower-cased code (empty when absent or falsy), valid iff that code is
ok/catch_all/catchall, with the full payload as details and no error.  But
on a 2xx payload that is not a JSON object, or whose `code` field is a
truthy non-string, it raises an uncaught `AttributeError` instead of
returning any result. -/
theorem claim6_verification_outcomes_or_raise (o : ApiOutcome) :
    match o with
    | ApiOutcome.transportError msg =>
        validate_email o =
          some ⟨false, "request_error", none, some ("API request failed: " ++ msg)⟩
    | ApiOutcome.decodeError =>
        validate_email o =
          some ⟨false, "json_error", none, some "Failed to decode API response"⟩
    | ApiOutcome.payload (JsonVal.obj fields) =>
        match pyCodeString fields with
        | some s =>
            ∃ r, validate_email o = some r ∧
              r.status_code = pyLower s ∧
              (r.is_valid = true ↔ r.status_code ∈ ["ok", "catch_all", "catchall"]) ∧
              r.details = some fields ∧
              r.error = none
        | none => validate_email o = none
    | ApiOutcome.payload _ => validate_email o = none := by
  cases o with
  | transportError msg => rfl
  | decodeError => rfl
  | payload p =>
    cases p with
    | obj fields =>
      cases hpc : pyCodeString fields with
      | none => simp [validate_email, hpc]
      | some s =>
        simp only [hpc]
        refine ⟨⟨VALID_CODES.contains (pyLower s), pyLower s, some fields, none⟩,
          by simp [validate_email, hpc], rfl, ?_, rfl, rfl⟩
        simp [VALID_CODES]
    | str s => rfl
    | num n => rfl
    | bool b => rfl
    | null => rfl
    | arr l => rfl

/-- C7: when the first name normalizes to the empty string the discovery
engine probes nothing, performs no delay, and returns the sentinel result
with zero credits and the no-candidates error. -/
theorem claim7_empty_first_name_zero_probes (probe : String → VResult)
    (first_name last_name : Option String) (company_website : String)
    (h : normFirst first_name = "") :
    find_valid_email probe first_name last_name company_website =
      ⟨⟨"no valid email", none, none, 0, some "No pattern returned as valid"⟩,
       [], 0⟩ := by
  unfold find_valid_email candidates
  rw [h]
  rfl

/-- Concrete instance of C7 at a whitespace-only first name. -/
theorem claim7_witness :
    normFirst (some "   ") = "" ∧
    find_valid_email probeInvalid (some "   ") (some "Doe") "acme.com" =
      ⟨⟨"no valid email", none, none, 0, some "No pattern returned as valid"⟩,
       [], 0⟩ :=
  ⟨by decide,
   claim7_empty_first_name_zero_probes probeInvalid (some "   ") (some "Doe")
     "acme.com" (by decide)⟩

/-- C8: with a non-empty (lower-cased) first name and no last name the
generator emits exactly the single candidate first@domain. -/
theorem claim8_no_last_name_single_candidate (first_name domain : String)
    (h1 : first_name ≠ "") (h2 : pyLower first_name = first_name) :
    generate_prioritized_email_patterns first_name none domain =
      [first_name ++ "@" ++ domain] := by
  simp [generate_prioritized_email_patterns, h1, h2, dedupKeepFirst, dedupAux]

/-- Concrete instance of C8. -/
theorem claim8_witness :
    generate_prioritized_email_patterns "john" none "acme.com" = ["john@acme.com"] :=
  claim8_no_last_name_single_candidate "john" "acme.com" (by decide) (by decide)

/-- C9: a batch row whose first name or company website trims to empty is
answered locally: zero external calls, all discovery fields absent, error
"Missing required fields", and the row's own (trimmed) fields preserved. -/
theorem claim9_missing_fields_row (post : Unit → PostOutcome) (row : CsvRow)
    (h : pyStrip (row.first_name.getD "") = "" ∨
      pyStrip (row.company_website.getD "") = "") :
    process_row post row =
      (⟨pyStrip (row.first_name.getD ""), pyStrip (row.last_name.getD ""),
        pyStrip (row.company_website.getD ""),
        none, none, none, none, some "Missing required fields"⟩, 0) := by
  rcases h with h | h <;> simp [process_row, h]

/-- Concrete instance of C9 at a whitespace-only company website. -/
theorem claim9_witness :
    process_row (fun _ => PostOutcome.failure "boom")
      ⟨some "john", some "doe", some "   "⟩ =
      (⟨"john", "doe", "", none, none, none, none,
        some "Missing required fields"⟩, 0) := by
  have h := claim9_missing_fields_row (fun _ => PostOutcome.failure "boom")
    ⟨some "john", some "doe", some "   "⟩ (Or.inr (by decide))
  exact h.trans rfl

/-- C10: the generator treats an empty-string last name exactly like an
absent one, producing the single candidate first@domain. -/
theorem claim10_empty_last_name_like_absent (first_name domain : String)
    (h1 : first_name ≠ "") :
    generate_prioritized_email_patterns first_name (some "") domain =
      generate_prioritized_email_patterns first_name none domain ∧
    generate_prioritized_email_patterns first_name (some "") domain =
      [pyLower first_name ++ "@" ++ domain] := by
  constructor
  · simp [generate_prioritized_email_patterns, h1]
  · simp [generate_prioritized_email_patterns, h1, dedupKeepFirst, dedupAux]

/-- Concrete instance of C10. -/
theorem claim10_witness :
    generate_prioritized_email_patterns "John" (some "") "acme.com" =
      generate_prioritized_email_patterns "John" none "acme.com" ∧
    generate_prioritized_email_patterns "John" (some "") "acme.com" =
      ["john@acme.com"] := by
  have h := claim10_empty_last_name_like_absent "John" "acme.com" (by decide)
  exact ⟨h.1, h.2.trans (by decide)⟩
